import Mathlib

/-!
Verification development for the PMGen alignment utilities
(`src/utils/alignment.py`).  The Python source is shallowly embedded:
strings are lists of characters, pandas tables are lists of records,
filesystem artifacts and the external tools (MAFFT, mmseqs2) are
uninterpreted functions bundled in an environment structure, and Python
exceptions are `Except`/`Option` values.
-/

/-- Python strings are modelled as lists of characters. -/
abbrev Str := List Char

/-- Convert a Lean string literal to the `Str` model. -/
def str (s : String) : Str := s.toList

/-- Python `pat in s` (substring containment), by scanning for a prefix
at every suffix of `s`. -/
def isSubstr (pat : Str) : Str → Bool
  | [] => pat.isEmpty
  | c :: rest => pat.isPrefixOf (c :: rest) || isSubstr pat rest

/-- Locate the first occurrence of `sep` in a string, returning the part
before it and the part after it (`none` when `sep` does not occur).
Used to model Python `str.split` and `str.replace`. -/
def splitFirst (sep : Str) : Str → Option (Str × Str)
  | [] => none
  | c :: rest =>
    if sep.isPrefixOf (c :: rest) then some ([], (c :: rest).drop sep.length)
    else match splitFirst sep rest with
      | none => none
      | some (a, b) => some (c :: a, b)

/-- Fuel-driven worker for `splitOnSeps`. -/
def splitAux (sep : Str) : Nat → Str → List Str
  | 0, s => [s]
  | fuel + 1, s =>
    match splitFirst sep s with
    | none => [s]
    | some (a, b) => a :: splitAux sep fuel b

/-- Python `s.split(sep)` for a non-empty separator: split at each
non-overlapping occurrence, left to right. -/
def splitOnSeps (sep : Str) (s : Str) : List Str := splitAux sep (s.length + 1) s

/-- Fuel-driven worker for `replaceAll`. -/
def replaceAllAux (pat rep : Str) : Nat → Str → Str
  | 0, s => s
  | fuel + 1, s =>
    match splitFirst pat s with
    | none => s
    | some (a, b) => a ++ rep ++ replaceAllAux pat rep fuel b

/-- Python `s.replace(pat, rep)` for a non-empty pattern. -/
def replaceAll (pat rep s : Str) : Str := replaceAllAux pat rep (s.length + 1) s

/-- Python `os.path.join(a, b)` for the relative paths used here. -/
def pjoin (a b : Str) : Str := a ++ str "/" ++ b

/-- Decimal digit character for a single digit value. -/
def digitChar10 (d : Nat) : Char :=
  if d = 0 then '0' else if d = 1 then '1' else if d = 2 then '2'
  else if d = 3 then '3' else if d = 4 then '4' else if d = 5 then '5'
  else if d = 6 then '6' else if d = 7 then '7' else if d = 8 then '8'
  else '9'

/-- Numeric value of a decimal digit character. -/
def charDigit10 (c : Char) : Nat :=
  if c = '0' then 0 else if c = '1' then 1 else if c = '2' then 2
  else if c = '3' then 3 else if c = '4' then 4 else if c = '5' then 5
  else if c = '6' then 6 else if c = '7' then 7 else if c = '8' then 8
  else 9

/-- Fuel-driven worker for `natStr`; the fuel always exceeds the number
of divisions by ten that are needed. -/
def natStrAux : Nat → Nat → Str
  | 0, _ => []
  | fuel + 1, n =>
    if n < 10 then [digitChar10 n]
    else natStrAux fuel (n / 10) ++ [digitChar10 (n % 10)]

/-- Python `str(n)` on a natural number: standard decimal rendering. -/
def natStr (n : Nat) : Str := natStrAux (n + 1) n

/-- Value of a digit string, used to show `natStr` is injective. -/
def digitsVal (l : Str) : Nat := l.foldl (fun a c => a * 10 + charDigit10 c) 0

/-- The segment of a string after its last underscore (the whole string
when it has none); used to show that distinct counters yield distinct
generated identifiers. -/
def lastSeg (l : Str) : Str := (l.reverse.takeWhile (fun c => c != '_')).reverse

/-- A FASTA sequence record (identifier, free-text description, residue
string), as parsed by Biopython in the source. -/
structure FRec where
  id : Str
  description : Str
  seq : Str
deriving DecidableEq

/-! ## Alignment-and-filter stage (`filter_mafft_alignment`, lines 92-147)

The external MAFFT invocation produces the `alignment` input; the pure
filtering logic that follows it is embedded below. -/

/-- Embeds `compute_coverage` (lines 118-120): 100 times the count of
non-gap positions of the query divided by the reference length, as an
exact rational. -/
def compute_coverage (ref_seq_length : Nat) (query_seq : Str) : ℚ :=
  ((query_seq.countP (fun res => res != '-') : ℚ) / (ref_seq_length : ℚ)) * 100

/-- Embeds the gap-stripping expression of line 132:
`str(record.seq).replace("-", "").replace("X", "")`. -/
def remove_gaps_X (s : Str) : Str :=
  (s.filter (fun c => c != '-')).filter (fun c => c != 'X')

/-- Per-record body of the filtering loop of `filter_mafft_alignment`
(lines 124-136): the reference record (identified by id) is kept as is;
any other record is kept, gap-stripped, exactly when its coverage
reaches the threshold. -/
def filter_mafft_step (ref_seq_id : Str) (ref_seq_length : Nat) (coverage_threshold : ℚ)
    (record : FRec) : Option FRec :=
  if record.id = ref_seq_id then some record
  else if coverage_threshold ≤ compute_coverage ref_seq_length record.seq then
    some { id := record.id, description := record.description,
           seq := remove_gaps_X record.seq }
  else none

/-- The filtered record list written by `filter_mafft_alignment`
(lines 123-141): the loop appends, in input order, the result of
`filter_mafft_step` for each aligned record. -/
def filter_mafft_alignment (alignment : List FRec) (ref_seq_id : Str)
    (ref_seq_length : Nat) (coverage_threshold : ℚ) : List FRec :=
  alignment.filterMap (filter_mafft_step ref_seq_id ref_seq_length coverage_threshold)

/-! ## Pseudo-sequence extractor (`match_pseudoseq`, lines 333-430) -/

/-- One input row of the CLIP table (line 339 and 350-353): numeric chunk
id, the raw semicolon-separated filename field, the run identifier, the
declared MHC class and the raw representative-identifier field. -/
structure Row where
  chunk_id : Nat
  file : Str
  id : Str
  mhc_type : Nat
  iden : Str
deriving DecidableEq

/-- One success row of the pseudo-sequence table (lines 405-411). -/
structure SRow where
  mhc_id : Str
  species : Str
  mhc_types : Nat
  pseudo_sequence : Str
  representative_id : Str
  sequence : Str
  repres_pseudo_positions : Str
deriving DecidableEq

/-- The filesystem artifacts and external tools `match_pseudoseq` touches,
as uninterpreted functions: `npz` is `np.load` on a hotspots artifact
(the list holds, in key order, the position column of each stored array,
already restricted to column 1; `none` means the load raises, e.g. a
missing file); `tsv` reads a cluster-membership table (rep, member);
`fasta` parses a FASTA file; `mafft` is the self-alignment subprocess of
line 379-380 taking the extracted records to the aligned records
(`none` means a non-zero exit).  Positions are naturals, per the
data-model invariant that contact positions are non-negative. -/
structure Env where
  npz : Str → Option (List (List Nat))
  tsv : Str → Option (List (Str × Str))
  fasta : Str → Option (List FRec)
  mafft : List FRec → Option (List FRec)

/-- The fixed arguments of one `match_pseudoseq` invocation. -/
structure MPArgs where
  env : Env
  input_folder : Str
  clust_folder : Str
  model : Str

/-- Embeds `np.unique` on the position column (line 383): the sorted
list of the distinct values.  `insertSorted` is insertion into a sorted
list. -/
def insertSorted (x : Nat) : List Nat → List Nat
  | [] => [x]
  | y :: ys => if x ≤ y then x :: y :: ys else y :: insertSorted x ys

/-- Sort a list of naturals by insertion sort. -/
def sortNat (l : List Nat) : List Nat := l.foldr insertSorted []

/-- Embeds `np.unique(arr[key][:, 1])` of line 383. -/
def np_unique (l : List Nat) : List Nat := sortNat l.dedup

/-- Embeds the pseudo-sequence expression of line 395:
`"".join(record.seq[i] for i in mhc_position if i < len(record.seq))`. -/
def filtered_seq (seq : Str) (mhc_position : List Nat) : Str :=
  (mhc_position.filter (fun i => decide (i < seq.length))).map (fun i => seq.getD i 'A')

/-- Spec-side formulation of the pseudo-sequence ("the concatenation, in
position order, of the residues at exactly those contact positions that
are strictly less than the aligned sequence's length"), for comparison
with `filtered_seq`. -/
def pseudo_of_positions (seq : Str) (positions : List Nat) : Str :=
  positions.filterMap (fun i => seq.get? i)

/-- Embeds `f.split('-')[1].split('_')[0]` of line 400 (species parsed
from the filename); the outer indexing raises when the filename has no
dash, hence the `Option`. -/
def speciesOf (f : Str) : Option Str :=
  match (splitOnSeps (str "-") f).get? 1 with
  | none => none
  | some s => some ((splitOnSeps (str "_") s).headD [])

/-- Embeds line 362: `'_'.join(str(row['iden']).split('_')[:-1]).split(';;')`. -/
def idenListOf (row : Row) : List Str :=
  splitOnSeps (str ";;") (List.intercalate (str "_") (splitOnSeps (str "_") row.iden).dropLast)

/-- Embeds `Files.split(';;')` of line 358. -/
def filesOf (row : Row) : List Str := splitOnSeps (str ";;") row.file

/-- The pair of chain-count assertions of lines 366-371: under class 2
the representative list and the filename list must both have two
entries, otherwise both must have one. -/
def chainAssertOk (mhc_type : Nat) (idenList files : List Str) : Bool :=
  if mhc_type = 2 then idenList.length == 2 && files.length == 2
  else idenList.length == 1 && files.length == 1

/-- Embeds line 372: derive the membership-table filename from the
cluster FASTA filename, joined under the mmseqs cluster folder. -/
def tsvPath (A : MPArgs) (f : Str) : Str :=
  pjoin A.clust_folder (replaceAll (str "clust_all_seqs.fasta") (str "clust_cluster.tsv") f)

/-- Embeds lines 375-376: the member identifiers of the rows whose
representative equals the chain's representative identifier. -/
def headersFor (tsvrows : List (Str × Str)) (repId : Str) : List Str :=
  (tsvrows.filter (fun r => r.1 == repId)).map (fun r => r.2)

/-- Embeds `extract_fasta_sequences` (lines 317-330): keep the records
whose identifier is listed and whose sequence is non-empty. -/
def extract_fasta_sequences (recs : List FRec) (headers_to_keep : List Str) : List FRec :=
  recs.filter (fun r => headers_to_keep.contains r.id && decide (0 < r.seq.length))

/-- Embeds the per-record accumulation loop of lines 386-403: for each
aligned record with non-empty sequence whose pseudo-sequence is
non-empty, a success row is built; parsing the species from the
filename can raise (`Except.error`), which the enclosing chain handler
catches. -/
def buildRows (f : Str) (mhc_type : Nat) (repId : Str) (pos : List Nat) :
    List FRec → Except Unit (List SRow)
  | [] => .ok []
  | rec :: rest =>
    if rec.seq.isEmpty then buildRows f mhc_type repId pos rest
    else if (filtered_seq rec.seq pos).isEmpty then buildRows f mhc_type repId pos rest
    else
      match speciesOf f with
      | none => .error ()
      | some sp =>
        match buildRows f mhc_type repId pos rest with
        | .error e => .error e
        | .ok rows =>
          .ok ({ mhc_id := rec.id, species := sp, mhc_types := mhc_type,
                 pseudo_sequence := filtered_seq rec.seq pos,
                 representative_id := repId, sequence := rec.seq,
                 repres_pseudo_positions :=
                   List.intercalate (str ";") (pos.map natStr) } :: rows)

/-- The per-record success decision of lines 394-403 as a function of a
single aligned record, used to characterise `buildRows`. -/
def successRowOf (mhc_type : Nat) (repId sp : Str) (pos : List Nat) (rec : FRec) :
    Option SRow :=
  if rec.seq.isEmpty then none
  else if (filtered_seq rec.seq pos).isEmpty then none
  else some { mhc_id := rec.id, species := sp, mhc_types := mhc_type,
              pseudo_sequence := filtered_seq rec.seq pos,
              representative_id := repId, sequence := rec.seq,
              repres_pseudo_positions := List.intercalate (str ";") (pos.map natStr) }

/-- Embeds the body of the `try` block of lines 365-414 for one chain:
the chain-count assertions, the membership-table load, the
representative lookup (`iden[enum]`), the member extraction, the
self-alignment, the stored-position lookup (`list(arr.keys())[enum]` and
`arr[key]`), and the per-record accumulation; every raising operation
maps to `Except.error ()`.  On success it returns the accumulated rows
together with the chain's representative identifier (line 404's test is
applied by the caller). -/
def tryChain (A : MPArgs) (row : Row) (arr : List (List Nat))
    (idenList files : List Str) (enum : Nat) (f : Str) : Except Unit (List SRow × Str) :=
  if chainAssertOk row.mhc_type idenList files then
    match A.env.tsv (tsvPath A f) with
    | none => .error ()
    | some tsvrows =>
      match idenList.get? enum with
      | none => .error ()
      | some repId =>
        match A.env.fasta (pjoin A.clust_folder f) with
        | none => .error ()
        | some recs =>
          match A.env.mafft (extract_fasta_sequences recs (headersFor tsvrows repId)) with
          | none => .error ()
          | some aligned =>
            match arr.get? enum with
            | none => .error ()
            | some col =>
              match buildRows f row.mhc_type repId (np_unique col) aligned with
              | .error e => .error e
              | .ok rows => .ok (rows, repId)
  else .error ()

/-- Outcome of one chain of one row: rows appended to the success
accumulator (line 412), a failure row appended to the failure
accumulator (lines 414 and 419), or an uncaught exception that aborts
the whole call (the `iden[enum]` lookup inside the `except` handler of
line 419 raising `IndexError`). -/
inductive ChainOutcome where
  | appended (rows : List SRow)
  | failedRow (v : Str)
  | abort
deriving DecidableEq

/-- Embeds one full chain iteration (lines 365-419): the `try` body, the
non-empty test of line 404, and the `except` handler of lines 418-419
whose own `iden[enum]` can raise. -/
def chainStep (A : MPArgs) (row : Row) (arr : List (List Nat))
    (idenList files : List Str) (enum : Nat) (f : Str) : ChainOutcome :=
  match tryChain A row arr idenList files enum f with
  | .ok (rows, repId) => if rows.isEmpty then .failedRow repId else .appended rows
  | .error _ =>
    match idenList.get? enum with
    | some v => .failedRow v
    | none => .abort

/-- Embeds the chain loop of line 358 (`for enum, f in
enumerate(Files.split(';;'))`) with the `mice` exclusion of line 364,
threading the two accumulators; `none` propagates an uncaught
exception. -/
def chainsFold (A : MPArgs) (row : Row) (arr : List (List Nat))
    (idenList files : List Str) :
    List (Nat × Str) → List SRow → List Str → Option (List SRow × List Str)
  | [], DF, FAILED => some (DF, FAILED)
  | (enum, f) :: rest, DF, FAILED =>
    if isSubstr (str "mice") f then chainsFold A row arr idenList files rest DF FAILED
    else
      match chainStep A row arr idenList files enum f with
      | .appended rows => chainsFold A row arr idenList files rest (DF ++ rows) FAILED
      | .failedRow v => chainsFold A row arr idenList files rest DF (FAILED ++ [v])
      | .abort => none

/-- Embeds the hotspot-artifact path of lines 354-355. -/
def npzPathOf (A : MPArgs) (row : Row) : Str :=
  pjoin (pjoin (pjoin (pjoin (pjoin A.input_folder (natStr row.chunk_id))
    (str "protienmpnn")) row.id) (row.id ++ str "_model_1_" ++ A.model))
    (str "hotspots.npz")

/-- Embeds one row iteration of lines 347-419.  The `np.load` of line
356 sits outside the per-chain `try`, so a missing or unloadable
hotspots artifact aborts the whole call (`none`). -/
def processRow (A : MPArgs) (row : Row) (DF : List SRow) (FAILED : List Str) :
    Option (List SRow × List Str) :=
  match A.env.npz (npzPathOf A row) with
  | none => none
  | some arr =>
    chainsFold A row arr (idenListOf row) (filesOf row) (filesOf row).enum DF FAILED

/-- Embeds the row loop of line 347 over the whole input table. -/
def loopRows (A : MPArgs) : List Row → List SRow → List Str → Option (List SRow × List Str)
  | [], DF, FAILED => some (DF, FAILED)
  | row :: rest, DF, FAILED =>
    match processRow A row DF FAILED with
    | none => none
    | some (DF', FAILED') => loopRows A rest DF' FAILED'

/-- Deduplication key of the success table (line 424). -/
def srowKey (r : SRow) : Str × Str × Nat × Str × Str :=
  (r.mhc_id, r.species, r.mhc_types, r.representative_id, r.pseudo_sequence)

/-- Worker for `drop_duplicates_srows`, keeping first occurrences. -/
def dedupSRowsAux (seen : List (Str × Str × Nat × Str × Str)) : List SRow → List SRow
  | [] => []
  | r :: rest =>
    if decide (srowKey r ∈ seen) then dedupSRowsAux seen rest
    else r :: dedupSRowsAux (srowKey r :: seen) rest

/-- Embeds `DF.drop_duplicates(subset=[...])` of line 424 (pandas keeps
the first occurrence of each key). -/
def drop_duplicates_srows (l : List SRow) : List SRow := dedupSRowsAux [] l

/-- Worker for `drop_duplicates_iden`, keeping first occurrences. -/
def dedupStrsAux (seen : List Str) : List Str → List Str
  | [] => []
  | v :: rest =>
    if decide (v ∈ seen) then dedupStrsAux seen rest
    else v :: dedupStrsAux (v :: seen) rest

/-- Embeds `FAILED.drop_duplicates(subset=['iden'])` of line 428. -/
def drop_duplicates_iden (l : List Str) : List Str := dedupStrsAux [] l

/-- One output file written by the post-loop code of lines 422-429. -/
inductive FileWrite where
  | dfTsv (rows : List SRow)
  | dfNoDup (rows : List SRow)
  | failedTsv (idens : List Str)
  | failedNoDup (idens : List Str)
deriving DecidableEq

/-- Embeds the post-loop persistence of lines 422-429: `pd.concat` on an
empty accumulator raises (so with no success rows nothing at all is
written); the success table and its deduplicated variant are written,
then the failure table; line 428 calls `drop_duplicates` but discards
its result, so the file of line 429 holds the non-deduplicated failure
rows.  The returned pair is the list of files written, in order, and
the completion signal (`ok` models the `return None` of line 430). -/
def postLoop (DF : List SRow) (FAILED : List Str) : List FileWrite × Except Unit Unit :=
  match DF with
  | [] => ([], .error ())
  | _ :: _ =>
    match FAILED with
    | [] => ([FileWrite.dfTsv DF, FileWrite.dfNoDup (drop_duplicates_srows DF)], .error ())
    | _ :: _ =>
      let _discarded := drop_duplicates_iden FAILED
      ([FileWrite.dfTsv DF, FileWrite.dfNoDup (drop_duplicates_srows DF),
        FileWrite.failedTsv FAILED, FileWrite.failedNoDup FAILED], .ok ())

/-- Embeds `match_pseudoseq` (lines 333-430) end to end, with
`continue_from_index=None`: the row/chain extraction loop followed by
the post-loop persistence; an uncaught exception yields no writes and
no completion signal. -/
def match_pseudoseq (A : MPArgs) (rows : List Row) : List FileWrite × Except Unit Unit :=
  match loopRows A rows [] [] with
  | none => ([], .error ())
  | some (DF, FAILED) => postLoop DF FAILED

/-! ## Chain-pairing stage (`mhc2_cluster_combination_seqs`, lines 243-281)

The embedding covers the cardinality/assertion control flow and the
combination counting (`total_len`); the per-pair FASTA writes carry the
same records and are not modelled separately.  `files` is the candidate
file list built on lines 244-247; `fa` parses a FASTA file. -/

/-- The species list of line 251. -/
def SPECIES : List Str :=
  [str "homo", str "SLA", str "Patr", str "Mamu", str "BOLA", str "DLA"]

/-- The species-specific alpha/beta gene-pairing table of lines 254-257. -/
def gene_pairs (species : Str) : List (Str × Str) :=
  if species = str "homo" then
    [(str "DMA", str "DMB"), (str "DOA", str "DOB"), (str "DPA1", str "DPB1"),
     (str "DQA1", str "DQB1"), (str "DRA", str "DRB1-DRB3-DRB4-DRB5")]
  else
    [(str "DMA", str "DMB"), (str "DOA", str "DOB"), (str "DPA", str "DPB"),
     (str "DQA", str "DQB"), (str "DRA", str "DRB")]

/-- Embeds the file-matching comprehensions of lines 259 and 265:
the files whose name contains both the gene pattern and the species. -/
def matchingFiles (files : List Str) (species pat : Str) : List Str :=
  files.filter (fun i => isSubstr pat i && isSubstr species i)

/-- Embeds the inner `for val in value.split('-')` loop of lines
263-274: locate the unique beta file (assertion failure otherwise) and
add the full alpha-cross-beta record count. -/
def valsFold (fa : Str → List FRec) (files : List Str) (species : Str)
    (alphaRecs : List FRec) : List Str → Nat → Except Unit Nat
  | [], total => .ok total
  | val :: rest, total =>
    match matchingFiles files species val with
    | [beta] => valsFold fa files species alphaRecs rest
        (total + alphaRecs.length * (fa beta).length)
    | _ => .error ()

/-- Embeds one (species, alpha-gene, beta-spec) item of the loop of
lines 258-274: the alpha cardinality assertion of line 260, the
zero-match `continue` of line 261, and the beta loop. -/
def pairStep (fa : Str → List FRec) (files : List Str) (species key value : Str) :
    Except Unit Nat :=
  let alpha := matchingFiles files species key
  if alpha.length ≤ 1 then
    match alpha with
    | [] => .ok 0
    | a :: _ => valsFold fa files species (fa a) (splitOnSeps (str "-") value) 0
  else .error ()

/-- The (species, alpha-gene, beta-spec) items visited by the nested
loops of lines 253-274, in execution order. -/
def species_pairs : List (Str × Str × Str) :=
  (SPECIES.map (fun sp => (gene_pairs sp).map (fun kv => (sp, kv.1, kv.2)))).flatten

/-- Folds the per-item combination counts, short-circuiting on the
first assertion failure, as the function body does. -/
def pairsFold (fa : Str → List FRec) (files : List Str) :
    List (Str × Str × Str) → Nat → Except Unit Nat
  | [], total => .ok total
  | (sp, key, value) :: rest, total =>
    match pairStep fa files sp key value with
    | .error e => .error e
    | .ok c => pairsFold fa files rest (total + c)

/-- Embeds `mhc2_cluster_combination_seqs` (lines 243-276): the total
combination count, or an assertion failure aborting the run. -/
def mhc2_cluster_combination_seqs (fa : Str → List FRec) (files : List Str) :
    Except Unit Nat :=
  pairsFold fa files species_pairs 0

/-! ## Structure-input builder
(`create_parsefold_input_from_representatives`, lines 285-314) -/

/-- One directory entry of the input FASTA directory: its name, whether
it is a subdirectory, and its parsed records when read as FASTA. -/
structure DirEntry where
  name : Str
  isDir : Bool
  records : List FRec
deriving DecidableEq

/-- One output row of the structure-input table (lines 304-310). -/
structure PRow where
  peptide : Str
  mhc_seq : Str
  mhc_type : Nat
  anchors : Option Str
  id : Str
deriving DecidableEq

/-- The effective peptide list of lines 287-292: the caller's list, or
the fixed class-specific default when it is empty. -/
def effPeptides (peptides : List Str) (mhc_type : Nat) : List Str :=
  if peptides.isEmpty then
    if mhc_type = 1 then [str "MRMATPLLM"]
    else if mhc_type = 2 then [str "MRMATPLLMQALPM"]
    else []
  else peptides

/-- The directory-listing filters of lines 294-297: FASTA-suffixed
names, non-directories containing the caller's marker, and optionally
excluding `no_iden` (skipped when `no_iden` is absent or empty, per
Python truthiness). -/
def cpf_filtered (entries : List DirEntry) (iden : Str) (no_iden : Option Str) :
    List DirEntry :=
  let l1 := entries.filter (fun e => isSubstr (str ".fasta") e.name || isSubstr (str ".fa") e.name)
  let l2 := l1.filter (fun e => !e.isDir && isSubstr iden e.name)
  match no_iden with
  | some s => if s.isEmpty then l2 else l2.filter (fun e => !(isSubstr s e.name))
  | none => l2

/-- Embeds the per-file body of lines 299-312: the joined path must
additionally contain the hard-coded `'_rep'` and `'.fasta'` markers of
line 300; each record of the file then emits one row per peptide, the
shared counter `num` increasing by one per emitted row and suffixing
the record identifier (line 309). -/
def cpf_fileStep (fasta_dir : Str) (peptides : List Str) (mhc_type : Nat)
    (acc : List PRow × Nat) (e : DirEntry) : List PRow × Nat :=
  let input_fasta := pjoin fasta_dir e.name
  if isSubstr (str "_rep") input_fasta && isSubstr (str ".fasta") input_fasta then
    e.records.foldl (fun acc2 rec =>
      peptides.foldl (fun acc3 pep =>
        (acc3.1 ++ [{ peptide := pep, mhc_seq := rec.seq, mhc_type := mhc_type,
                      anchors := none,
                      id := rec.id ++ str "_" ++ natStr acc3.2 }], acc3.2 + 1)) acc2) acc
  else acc

/-- Embeds `create_parsefold_input_from_representatives` (lines
285-314): the `mhc_type` assertion of line 286, the peptide default,
the directory filters, the emission loop, and the final `pd.concat`
which raises when no row at all was emitted. -/
def create_parsefold_input_from_representatives (entries : List DirEntry)
    (fasta_dir : Str) (peptides : List Str) (mhc_type : Nat) (iden : Str)
    (num : Nat) (no_iden : Option Str) : Except Unit (List PRow) :=
  if mhc_type = 2 ∨ mhc_type = 1 then
    let peps := effPeptides peptides mhc_type
    let rows := ((cpf_filtered entries iden no_iden).foldl
      (cpf_fileStep fasta_dir peps mhc_type) ([], num)).1
    if rows.isEmpty then .error () else .ok rows
  else .error ()

/-- Spec-side cross product of the emission loop: one triple (peptide,
sequence, record identifier) per record per peptide, per file, in loop
order. -/
def crossTriples (files : List DirEntry) (peptides : List Str) : List (Str × Str × Str) :=
  (files.map (fun e =>
    ((e.records.map (fun r => peptides.map (fun p => (p, r.seq, r.id)))).flatten))).flatten

/-- Spec-side numbering of the emitted rows: the row built from the
k-th triple carries the counter `num + k` suffixed to its record
identifier. -/
def numberRows (mhc_type : Nat) (num : Nat) : List (Str × Str × Str) → List PRow
  | [] => []
  | t :: ts =>
    { peptide := t.1, mhc_seq := t.2.1, mhc_type := mhc_type, anchors := none,
      id := t.2.2 ++ str "_" ++ natStr num } :: numberRows mhc_type (num + 1) ts

/-! ## Concrete scenarios for the pseudo-sequence extractor

A small environment in which one chain succeeds: representative `R`
with members `A` (aligned sequence `AB`) and `B` (aligned sequence
`A`), stored position column `[1]`; the aligner is modelled as the
identity on the extracted records. -/

/-- An input row that processes successfully: class 1, one filename,
one representative identifier `R`. -/
def rowOK : Row := ⟨7, str "I-SLA_clust_all_seqs.fasta", str "Y", 1, str "R_0"⟩

/-- Environment for the successful scenario; every artifact resolves
regardless of path. -/
def envOK : Env :=
  { npz := fun _ => some [[1]]
    tsv := fun _ => some [(str "R", str "A"), (str "R", str "B")]
    fasta := fun _ => some [⟨str "A", [], str "AB"⟩, ⟨str "B", [], str "A"⟩]
    mafft := fun recs => some recs }

/-- Arguments of the successful scenario. -/
def argsOK : MPArgs := ⟨envOK, str "o", str "c", str "m"⟩

/-- The single success row the successful scenario produces: record `A`
contributes residue `B` at position 1; record `B` is too short and
contributes nothing. -/
def srowOK : SRow := ⟨str "A", str "SLA", 1, str "B", str "R", str "AB", str "1"⟩

/-- A row whose chain-count assertion fails recoverably: class 2
declared but only one filename and one representative identifier
(`R2`). -/
def rowF : Row := ⟨0, str "g", str "F", 2, str "R2_0"⟩

/-- A row whose hotspots artifact is missing (see `envC2`). -/
def rowBad : Row := ⟨3, str "I-SLA_clust_all_seqs.fasta", str "X", 1, str "R_0"⟩

/-- Environment in which exactly the hotspots artifact of `rowBad` is
missing and everything else behaves as in `envOK`. -/
def envC2 : Env :=
  { npz := fun p =>
      if p = str "o/3/protienmpnn/X/X_model_1_m/hotspots.npz" then none
      else some [[1]]
    tsv := fun _ => some [(str "R", str "A"), (str "R", str "B")]
    fasta := fun _ => some [⟨str "A", [], str "AB"⟩, ⟨str "B", [], str "A"⟩]
    mafft := fun recs => some recs }

/-- Arguments pairing `envC2` with the folders of the scenario. -/
def argsC2 : MPArgs := ⟨envC2, str "o", str "c", str "m"⟩

/-- A class-1 row carrying two filenames but a single representative
identifier: its second chain's failure handler indexes past the
identifier list. -/
def row4 : Row := ⟨0, str "f1;;f2", str "Z", 1, str "X_0"⟩

/-- Arguments for the `row4` scenario: the artifact loads, everything
else is irrelevant because the chain-count assertions fail first. -/
def args4 : MPArgs :=
  ⟨{ npz := fun _ => some [[0]]
     tsv := fun _ => none
     fasta := fun _ => none
     mafft := fun _ => none }, str "o", str "c", str "m"⟩

/-- A class-2 row with a single filename, used to exercise a recoverable
chain failure with a valid identifier lookup. -/
def rowW : Row := ⟨0, str "g", str "W", 2, str "R_0"⟩

/-! ## Sanity checks on the string model -/

example : natStr 1507 = str "1507" := by decide
example : splitOnSeps (str ";;") (str "a;;bc;;d") = [str "a", str "bc", str "d"] := by decide
example : splitOnSeps (str "_") (str "R_0") = [str "R", str "0"] := by decide
example : replaceAll (str "clust_all_seqs.fasta") (str "clust_cluster.tsv")
    (str "I-SLA_clust_all_seqs.fasta") = str "I-SLA_clust_cluster.tsv" := by decide
example : isSubstr (str "mice") (str "I-mice_x") = true := by decide
example : isSubstr (str "mice") (str "I-SLA_x") = false := by decide

/-! ## Claim C1: pseudo-sequence extraction -/

/-- Mapping over a filter is the filterMap of the guarded function. -/
theorem map_filter_eq_filterMap (f : Nat → Char) (p : Nat → Bool) (l : List Nat) :
    (l.filter p).map f = l.filterMap (fun x => if p x then some (f x) else none) := by
  induction l with
  | nil => rfl
  | cons a l ih =>
    by_cases h : p a
    · simp [List.filter_cons, List.filterMap_cons, h, ih]
    · simp [List.filter_cons, List.filterMap_cons, h, ih]

/-- The source expression of line 395 equals the filterMap through the
positional lookup, independent of any hypotheses. -/
theorem filtered_seq_eq_filterMap (seq : Str) (ps : List Nat) :
    filtered_seq seq ps = ps.filterMap (fun i => seq.get? i) := by
  rw [filtered_seq, map_filter_eq_filterMap]
  apply List.filterMap_congr
  intro i _
  by_cases h : i < seq.length
  · rw [if_pos (by exact decide_eq_true h), List.getD_eq_getD_get?]
    cases hq : seq.get? i with
    | none => exact absurd (List.get?_eq_none.mp hq) (by omega)
    | some c => rfl
  · rw [if_neg (by simpa using h)]
    exact (List.get?_eq_none.mpr (by omega)).symm

/-- Claim C1: for every aligned record with non-empty sequence and every
sorted set of unique contact positions, the pseudo-sequence of line 395
is the concatenation, in position order, of the residues at exactly the
contact positions strictly below the aligned length; its length is the
count of such positions and hence at most the size of the position
set. -/
theorem C1_pseudoseq_extraction (seq : Str) (ps : List Nat)
    (hseq : seq ≠ []) (hsorted : List.Sorted (· < ·) ps) :
    filtered_seq seq ps = pseudo_of_positions seq ps ∧
    (filtered_seq seq ps).length = (ps.filter (fun i => decide (i < seq.length))).length ∧
    (filtered_seq seq ps).length ≤ ps.length := by
  refine ⟨filtered_seq_eq_filterMap seq ps, ?_, ?_⟩
  · simp [filtered_seq]
  · simp only [filtered_seq, List.length_map]
    exact List.length_filter_le _ ps

/-- Witness for C1 at a concrete record and position set. -/
theorem C1_pseudoseq_extraction_witness :
    filtered_seq (str "ABCDE") [1, 3, 9] = pseudo_of_positions (str "ABCDE") [1, 3, 9] ∧
    (filtered_seq (str "ABCDE") [1, 3, 9]).length = 2 ∧
    (filtered_seq (str "ABCDE") [1, 3, 9]).length ≤ 3 := by
  have h := C1_pseudoseq_extraction (str "ABCDE") [1, 3, 9] (by decide)
    (by decide)
  refine ⟨h.1, ?_, h.2.2⟩
  rw [h.2.1]
  decide

/-! ## Claim C3: coverage filter retention -/

/-- Claim C3: a record of the aligned input is retained iff it is the
reference record (always kept, by identifier) or its coverage, 100
times the non-gap count over the reference length, reaches the
threshold; with the concrete 4-of-8 example retained at threshold 50
and excluded at 51, and the reference retained at every threshold. -/
theorem C3_coverage_filter (alignment : List FRec) (ref_seq_id : Str)
    (ref_seq_length : Nat) (thr : ℚ) (hlen : 0 < ref_seq_length) :
    (∀ r ∈ alignment,
      (filter_mafft_step ref_seq_id ref_seq_length thr r).isSome
        ↔ (r.id = ref_seq_id ∨ thr ≤ compute_coverage ref_seq_length r.seq)) ∧
    (∀ r ∈ alignment, ∀ s, filter_mafft_step ref_seq_id ref_seq_length thr r = some s →
      s ∈ filter_mafft_alignment alignment ref_seq_id ref_seq_length thr) ∧
    (∀ s ∈ filter_mafft_alignment alignment ref_seq_id ref_seq_length thr,
      ∃ r ∈ alignment, filter_mafft_step ref_seq_id ref_seq_length thr r = some s) ∧
    compute_coverage 8 (str "AAAA----") = 50 ∧
    (filter_mafft_step (str "ref") 8 50 ⟨str "q", str "q", str "AAAA----"⟩).isSome = true ∧
    filter_mafft_step (str "ref") 8 51 ⟨str "q", str "q", str "AAAA----"⟩ = none ∧
    (∀ t : ℚ, (filter_mafft_step (str "ref") 8 t ⟨str "ref", str "r", str "AAAACCCC"⟩).isSome) := by
  have hcov : compute_coverage 8 (str "AAAA----") = 50 := by
    have hc : (str "AAAA----").countP (fun res => res != '-') = 4 := by decide
    rw [compute_coverage, hc]
    norm_num
  refine ⟨?_, ?_, ?_, hcov, ?_, ?_, ?_⟩
  · intro r _
    by_cases hid : r.id = ref_seq_id
    · simp [filter_mafft_step, hid]
    · by_cases hc : thr ≤ compute_coverage ref_seq_length r.seq
      · simp [filter_mafft_step, hid, hc]
      · simp [filter_mafft_step, hid, hc]
  · intro r hr s hs
    exact List.mem_filterMap.mpr ⟨r, hr, hs⟩
  · intro s hs
    exact List.mem_filterMap.mp hs
  · rw [filter_mafft_step, if_neg (by decide), if_pos (by rw [hcov])]
    rfl
  · rw [filter_mafft_step, if_neg (by decide), if_neg (by rw [hcov]; norm_num)]
  · intro t
    rw [filter_mafft_step, if_pos rfl]
    rfl

/-- Witness for C3 at the 4-of-8 example alignment. -/
theorem C3_coverage_filter_witness :
    (0 < 8) ∧
    ((filter_mafft_step (str "ref") 8 50 ⟨str "q", str "q", str "AAAA----"⟩).isSome
      ↔ ((str "q") = str "ref" ∨ (50 : ℚ) ≤ compute_coverage 8 (str "AAAA----"))) := by
  refine ⟨by decide, ?_⟩
  exact (C3_coverage_filter [⟨str "q", str "q", str "AAAA----"⟩] (str "ref") 8 50
    (by decide)).1 ⟨str "q", str "q", str "AAAA----"⟩ (by simp)

/-! ## Claim C7: gap-stripping of retained records

The claim states that every retained record, the reference included, is
written with both the gap character and the placeholder removed.  The
code (lines 125-127) appends the reference record unchanged, so a
reference whose aligned sequence carries a gap or placeholder is
written with it. -/

/-- Counterexample to C7 as stated: with a reference record whose
aligned sequence is `AA-X`, the filtered output contains a sequence
still holding `-` and `X`. -/
theorem C7_counterexample :
    ¬ (∀ s ∈ filter_mafft_alignment [⟨str "ref", str "ref", str "AA-X"⟩]
        (str "ref") 4 50, ('-' ∉ s.seq ∧ 'X' ∉ s.seq)) := by
  intro h
  have hs := h ⟨str "ref", str "ref", str "AA-X"⟩ (by
    refine List.mem_filterMap.mpr ⟨⟨str "ref", str "ref", str "AA-X"⟩, by simp, ?_⟩
    rw [filter_mafft_step, if_pos rfl])
  exact absurd hs (by decide)

/-- Claim C7 amended: every retained record other than the reference is
written gap-stripped (both `-` and `X` removed); the reference record
is appended unchanged. -/
theorem C7_gap_stripping_amended (alignment : List FRec) (ref_seq_id : Str)
    (ref_seq_length : Nat) (thr : ℚ) (s : FRec)
    (hs : s ∈ filter_mafft_alignment alignment ref_seq_id ref_seq_length thr)
    (hid : s.id ≠ ref_seq_id) : '-' ∉ s.seq ∧ 'X' ∉ s.seq := by
  obtain ⟨r, _, hstep⟩ := List.mem_filterMap.mp hs
  rw [filter_mafft_step] at hstep
  by_cases h1 : r.id = ref_seq_id
  · rw [if_pos h1] at hstep
    cases hstep
    exact absurd h1 hid
  · rw [if_neg h1] at hstep
    by_cases h2 : thr ≤ compute_coverage ref_seq_length r.seq
    · rw [if_pos h2] at hstep
      cases hstep
      constructor
      · intro hm
        have h3 := (List.mem_filter.mp (List.mem_filter.mp hm).1).2
        simp at h3
      · intro hm
        have h3 := (List.mem_filter.mp hm).2
        simp at h3
    · rw [if_neg h2] at hstep
      cases hstep

/-- Witness for the amended C7 at a concrete retained non-reference
record. -/
theorem C7_gap_stripping_amended_witness :
    '-' ∉ str "AB" ∧ 'X' ∉ str "AB" := by
  have hstep : filter_mafft_step (str "ref") 4 0 ⟨str "q", str "q", str "AB-X"⟩
      = some ⟨str "q", str "q", str "AB"⟩ := by
    rw [filter_mafft_step, if_neg (by decide), if_pos (by
      rw [compute_coverage]
      positivity)]
    decide
  have hmem : (⟨str "q", str "q", str "AB"⟩ : FRec)
      ∈ filter_mafft_alignment [⟨str "q", str "q", str "AB-X"⟩] (str "ref") 4 0 :=
    List.mem_filterMap.mpr ⟨⟨str "q", str "q", str "AB-X"⟩, by simp, hstep⟩
  exact C7_gap_stripping_amended [⟨str "q", str "q", str "AB-X"⟩] (str "ref") 4 0
    ⟨str "q", str "q", str "AB"⟩ hmem (by decide)

/-! ## Decimal rendering: injectivity and digit alphabet -/

/-- Round trip of a single digit through its character. -/
theorem charDigit10_digitChar10 (d : Nat) (h : d < 10) :
    charDigit10 (digitChar10 d) = d := by
  interval_cases d <;> decide

/-- Digit characters are never an underscore. -/
theorem digitChar10_ne_underscore (d : Nat) : digitChar10 d ≠ '_' := by
  unfold digitChar10
  split_ifs <;> decide

/-- Appending a digit multiplies the accumulated value by ten. -/
theorem digitsVal_append (l : Str) (c : Char) :
    digitsVal (l ++ [c]) = digitsVal l * 10 + charDigit10 c := by
  simp [digitsVal, List.foldl_append]

/-- The decimal rendering evaluates back to its input. -/
theorem natStrAux_val (fuel : Nat) : ∀ n : Nat, n < fuel →
    digitsVal (natStrAux fuel n) = n := by
  induction fuel with
  | zero => intro n h; omega
  | succ fuel ih =>
    intro n h
    by_cases h10 : n < 10
    · simp [natStrAux, h10, digitsVal, charDigit10_digitChar10 n h10]
    · have hdiv : n / 10 < fuel := by
        have : n / 10 < n := Nat.div_lt_self (by omega) (by omega)
        omega
      simp only [natStrAux, if_neg h10]
      rw [digitsVal_append, ih (n / 10) hdiv,
        charDigit10_digitChar10 (n % 10) (Nat.mod_lt n (by omega))]
      omega

/-- Python decimal rendering of naturals is injective. -/
theorem natStr_inj {a b : Nat} (h : natStr a = natStr b) : a = b := by
  have ha := natStrAux_val (a + 1) a (by omega)
  have hb := natStrAux_val (b + 1) b (by omega)
  unfold natStr at h
  rw [h] at ha
  rw [hb] at ha
  exact ha.symm

/-- No underscore occurs in a decimal rendering. -/
theorem natStrAux_no_underscore (fuel : Nat) : ∀ n : Nat, '_' ∉ natStrAux fuel n := by
  induction fuel with
  | zero => intro n; simp [natStrAux]
  | succ fuel ih =>
    intro n
    by_cases h10 : n < 10
    · simp [natStrAux, h10, digitChar10_ne_underscore]
      exact fun hq => absurd hq.symm (digitChar10_ne_underscore n)
    · simp only [natStrAux, if_neg h10, List.mem_append, List.mem_singleton]
      rintro (hmem | hq)
      · exact ih (n / 10) hmem
      · exact absurd hq.symm (digitChar10_ne_underscore (n % 10))

/-- No underscore occurs in `natStr`. -/
theorem natStr_no_underscore (n : Nat) : '_' ∉ natStr n :=
  natStrAux_no_underscore (n + 1) n

/-- `takeWhile` runs through a block where the predicate holds and stops
at the first failing element. -/
theorem takeWhile_all_append (p : Char → Bool) (xs : Str) (y : Char) (ys : Str)
    (hxs : ∀ x ∈ xs, p x = true) (hy : p y = false) :
    (xs ++ y :: ys).takeWhile p = xs := by
  induction xs with
  | nil => simp [List.takeWhile_cons, hy]
  | cons a as ih =>
    have ha : p a = true := hxs a (by simp)
    simp only [List.cons_append, List.takeWhile_cons, ha]
    rw [ih (fun x hx => hxs x (by simp [hx]))]
    simp

/-- The segment after the last underscore of an identifier built by
suffixing a decimal counter is exactly that counter's rendering. -/
theorem lastSeg_append_natStr (a : Str) (n : Nat) :
    lastSeg (a ++ str "_" ++ natStr n) = natStr n := by
  have hu : str "_" = ['_'] := rfl
  rw [lastSeg, hu]
  have hrev : ((a ++ ['_']) ++ natStr n).reverse
      = (natStr n).reverse ++ '_' :: a.reverse := by
    simp [List.reverse_append]
  rw [hrev, takeWhile_all_append _ _ _ _ ?hall (by decide), List.reverse_reverse]
  case hall =>
    intro x hx
    have hxn : x ∈ natStr n := List.mem_reverse.mp hx
    have : x ≠ '_' := fun hq => absurd (hq ▸ hxn) (natStr_no_underscore n)
    simpa using this

/-- Two counter-suffixed identifiers agree only when the counters do. -/
theorem id_suffix_inj (a b : Str) (n m : Nat)
    (h : a ++ str "_" ++ natStr n = b ++ str "_" ++ natStr m) : n = m := by
  have := congrArg lastSeg h
  rw [lastSeg_append_natStr, lastSeg_append_natStr] at this
  exact natStr_inj this

/-! ## Claim C8: structure-input builder -/

/-- Numbering rows distributes over append, shifting the counter. -/
theorem numberRows_append (ty num : Nat) (a b : List (Str × Str × Str)) :
    numberRows ty num (a ++ b) = numberRows ty num a ++ numberRows ty (num + a.length) b := by
  induction a generalizing num with
  | nil => simp [numberRows]
  | cons t ts ih =>
    simp only [List.cons_append, numberRows, List.length_cons, List.append_eq]
    rw [ih]
    have h : num + 1 + ts.length = num + (ts.length + 1) := by omega
    rw [h]

/-- One row per triple. -/
theorem numberRows_length (ty num : Nat) (ts : List (Str × Str × Str)) :
    (numberRows ty num ts).length = ts.length := by
  induction ts generalizing num with
  | nil => rfl
  | cons t ts ih => simp [numberRows, ih]

/-- Every emitted row's identifier is a base suffixed with a counter at
least the starting value. -/
theorem mem_numberRows_id (ty num : Nat) (ts : List (Str × Str × Str)) (r : PRow)
    (h : r ∈ numberRows ty num ts) :
    ∃ a k, num ≤ k ∧ r.id = a ++ str "_" ++ natStr k := by
  induction ts generalizing num with
  | nil => simp [numberRows] at h
  | cons t ts ih =>
    simp only [numberRows, List.mem_cons] at h
    rcases h with h | h
    · exact ⟨t.2.2, num, le_refl num, by rw [h]⟩
    · obtain ⟨a, k, hk, hid⟩ := ih (num + 1) h
      exact ⟨a, k, by omega, hid⟩

/-- All generated identifiers are pairwise distinct: the counter grows
by one per emitted row and the decimal suffix after the last underscore
determines it. -/
theorem numberRows_pairwise (ty num : Nat) (ts : List (Str × Str × Str)) :
    (numberRows ty num ts).Pairwise (fun x y => x.id ≠ y.id) := by
  induction ts generalizing num with
  | nil => simp [numberRows]
  | cons t ts ih =>
    refine List.Pairwise.cons ?_ (ih (num + 1))
    intro r hr heq
    obtain ⟨a, k, hk, hid⟩ := mem_numberRows_id ty (num + 1) ts r hr
    rw [hid] at heq
    have := id_suffix_inj t.2.2 a num k heq
    omega

/-- The inner peptide loop of lines 303-311 appends one row per peptide
and advances the counter once per row. -/
theorem cpf_pepFold (ty : Nat) (rec : FRec) (peps : List Str) (rows : List PRow) (n : Nat) :
    peps.foldl (fun acc3 pep =>
      (acc3.1 ++ [{ peptide := pep, mhc_seq := rec.seq, mhc_type := ty,
                    anchors := none,
                    id := rec.id ++ str "_" ++ natStr acc3.2 }], acc3.2 + 1)) (rows, n)
    = (rows ++ numberRows ty n (peps.map (fun p => (p, rec.seq, rec.id))), n + peps.length) := by
  induction peps generalizing rows n with
  | nil => simp [numberRows]
  | cons p ps ih =>
    simp only [List.foldl_cons, List.map_cons, numberRows, List.length_cons]
    rw [ih]
    refine Prod.ext ?_ ?_
    · simp
    · simp
      omega

/-- The record loop of lines 302-312 concatenates the peptide-loop
output of each record, threading the counter. -/
theorem cpf_recFold (ty : Nat) (peps : List Str) (recs : List FRec)
    (rows : List PRow) (n : Nat) :
    recs.foldl (fun acc2 rec =>
      peps.foldl (fun acc3 pep =>
        (acc3.1 ++ [{ peptide := pep, mhc_seq := rec.seq, mhc_type := ty,
                      anchors := none,
                      id := rec.id ++ str "_" ++ natStr acc3.2 }], acc3.2 + 1)) acc2) (rows, n)
    = (rows ++ numberRows ty n ((recs.map (fun r => peps.map (fun p => (p, r.seq, r.id)))).flatten),
       n + ((recs.map (fun r => peps.map (fun p => (p, r.seq, r.id)))).flatten).length) := by
  induction recs generalizing rows n with
  | nil => simp [numberRows]
  | cons r rs ih =>
    simp only [List.foldl_cons, List.map_cons, List.flatten_cons]
    rw [cpf_pepFold, ih, numberRows_append]
    refine Prod.ext ?_ ?_
    · simp [List.length_map]
    · simp
      omega

/-- The file loop of lines 299-312: when every surviving file's joined
path carries the hard-coded markers, the fold emits exactly the cross
product with consecutively numbered identifiers. -/
theorem cpf_filesFold (d : Str) (peps : List Str) (ty : Nat) (files : List DirEntry)
    (rows : List PRow) (n : Nat)
    (hrep : ∀ e ∈ files, isSubstr (str "_rep") (pjoin d e.name) = true ∧
      isSubstr (str ".fasta") (pjoin d e.name) = true) :
    files.foldl (cpf_fileStep d peps ty) (rows, n)
    = (rows ++ numberRows ty n (crossTriples files peps),
       n + (crossTriples files peps).length) := by
  induction files generalizing rows n with
  | nil => simp [crossTriples, numberRows]
  | cons e es ih =>
    obtain ⟨h1, h2⟩ := hrep e (by simp)
    have hstep : cpf_fileStep d peps ty (rows, n) e
        = (rows ++ numberRows ty n ((e.records.map (fun r => peps.map (fun p => (p, r.seq, r.id)))).flatten),
           n + ((e.records.map (fun r => peps.map (fun p => (p, r.seq, r.id)))).flatten).length) := by
      rw [cpf_fileStep]
      rw [if_pos (by rw [h1, h2]; rfl)]
      exact cpf_recFold ty peps e.records rows n
    simp only [List.foldl_cons, hstep]
    rw [ih _ _ (fun x hx => hrep x (by simp [hx]))]
    have hcross : crossTriples (e :: es) peps
        = ((e.records.map (fun r => peps.map (fun p => (p, r.seq, r.id)))).flatten)
          ++ crossTriples es peps := by
      simp [crossTriples]
    rw [hcross, numberRows_append]
    refine Prod.ext ?_ ?_
    · simp
    · simp
      omega

/-- Counterexample to C8 as stated: a file whose name matches the
caller-supplied marker (here `_D`, as at the second orchestration call
site) but whose joined path lacks the hard-coded `_rep` marker of line
300 emits no row at all for its record and peptide — the function then
raises at the empty final concatenation — instead of the one row per
(file, record, peptide) the claim promises. -/
theorem C8_counterexample :
    isSubstr (str "_D") (str "a_D.fasta") = true ∧
    (cpf_filtered [⟨str "a_D.fasta", false, [⟨str "r", [], str "MKV"⟩]⟩]
      (str "_D") none).length = 1 ∧
    (effPeptides [] 2).length = 1 ∧
    create_parsefold_input_from_representatives
      [⟨str "a_D.fasta", false, [⟨str "r", [], str "MKV"⟩]⟩]
      (str "out") [] 2 (str "_D") 0 none = .error () := by
  refine ⟨by decide, by decide, by decide, ?_⟩
  rfl

/-- Claim C8 amended: when (as at the call sites in the source) every
file surviving the directory filters also carries `_rep` and `.fasta`
in its joined path, and at least one (file, record, peptide) triple
exists, the function emits exactly one row per triple in loop order,
each row holding the peptide, the record's sequence, the declared MHC
class and the record identifier suffixed with the caller-supplied
counter increased by one per emitted row, so all generated identifiers
are pairwise distinct. -/
theorem C8_parsefold_rows_amended (entries : List DirEntry) (fasta_dir : Str)
    (peptides : List Str) (mhc_type : Nat) (iden : Str) (num : Nat)
    (no_iden : Option Str)
    (hty : mhc_type = 2 ∨ mhc_type = 1)
    (hrep : ∀ e ∈ cpf_filtered entries iden no_iden,
      isSubstr (str "_rep") (pjoin fasta_dir e.name) = true ∧
      isSubstr (str ".fasta") (pjoin fasta_dir e.name) = true)
    (hne : crossTriples (cpf_filtered entries iden no_iden)
      (effPeptides peptides mhc_type) ≠ []) :
    create_parsefold_input_from_representatives entries fasta_dir peptides mhc_type
      iden num no_iden
      = .ok (numberRows mhc_type num
          (crossTriples (cpf_filtered entries iden no_iden)
            (effPeptides peptides mhc_type))) ∧
    (numberRows mhc_type num
      (crossTriples (cpf_filtered entries iden no_iden)
        (effPeptides peptides mhc_type))).Pairwise (fun x y => x.id ≠ y.id) ∧
    (numberRows mhc_type num
      (crossTriples (cpf_filtered entries iden no_iden)
        (effPeptides peptides mhc_type))).length
      = (crossTriples (cpf_filtered entries iden no_iden)
          (effPeptides peptides mhc_type)).length := by
  refine ⟨?_, numberRows_pairwise _ _ _, numberRows_length _ _ _⟩
  rw [create_parsefold_input_from_representatives, if_pos hty]
  have hfold := cpf_filesFold fasta_dir (effPeptides peptides mhc_type) mhc_type
    (cpf_filtered entries iden no_iden) [] num hrep
  have hni : (numberRows mhc_type num
      (crossTriples (cpf_filtered entries iden no_iden)
        (effPeptides peptides mhc_type))) ≠ [] := by
    intro h0
    have := numberRows_length mhc_type num
      (crossTriples (cpf_filtered entries iden no_iden) (effPeptides peptides mhc_type))
    rw [h0] at this
    exact hne (List.length_eq_zero.mp this.symm)
  simp only [hfold, List.nil_append, List.isEmpty_eq_false.mpr hni]
  rfl

/-- Witness for the amended C8 at a concrete representative file. -/
theorem C8_parsefold_rows_amended_witness :
    create_parsefold_input_from_representatives
      [⟨str "x_rep.fasta", false, [⟨str "r", [], str "MKV"⟩]⟩]
      (str "mm") [] 1 (str "_rep") 0 none
      = .ok (numberRows 1 0 (crossTriples
          (cpf_filtered [⟨str "x_rep.fasta", false, [⟨str "r", [], str "MKV"⟩]⟩]
            (str "_rep") none)
          (effPeptides [] 1))) ∧
    (numberRows 1 0 (crossTriples
        (cpf_filtered [⟨str "x_rep.fasta", false, [⟨str "r", [], str "MKV"⟩]⟩]
          (str "_rep") none)
        (effPeptides [] 1))).Pairwise (fun x y => x.id ≠ y.id) := by
  have h := C8_parsefold_rows_amended
    [⟨str "x_rep.fasta", false, [⟨str "r", [], str "MKV"⟩]⟩]
    (str "mm") [] 1 (str "_rep") 0 none (Or.inr rfl) (by decide) (by decide)
  exact ⟨h.1, h.2.1⟩

/-! ## Claim C9: chain-pairing cardinality assertions -/

/-- If any visited (species, alpha-gene, beta-spec) item fails its
assertions, the whole pairing run aborts. -/
theorem pairsFold_error (fa : Str → List FRec) (files : List Str) :
    ∀ (l : List (Str × Str × Str)) (total : Nat),
      (∃ x ∈ l, pairStep fa files x.1 x.2.1 x.2.2 = .error ()) →
      pairsFold fa files l total = .error () := by
  intro l
  induction l with
  | nil =>
    intro total hex
    simp at hex
  | cons y ys ih =>
    rcases y with ⟨sp, key, value⟩
    intro total hex
    rcases hex with ⟨x, hx, herr⟩
    cases hstep : pairStep fa files sp key value with
    | error e => simp [pairsFold, hstep]
    | ok c =>
      simp only [pairsFold, hstep]
      apply ih
      rcases List.mem_cons.mp hx with h | h
      · exfalso
        rw [h] at herr
        simp only at herr
        rw [hstep] at herr
        cases herr
      · exact ⟨x, h, herr⟩

/-- If any beta gene of the current pair has a match count other than
one, the beta loop aborts with an assertion failure. -/
theorem valsFold_error (fa : Str → List FRec) (files : List Str) (species : Str)
    (alphaRecs : List FRec) :
    ∀ (vals : List Str) (total : Nat),
      (∃ v ∈ vals, (matchingFiles files species v).length ≠ 1) →
      valsFold fa files species alphaRecs vals total = .error () := by
  intro vals
  induction vals with
  | nil =>
    intro total hex
    simp at hex
  | cons v vs ih =>
    intro total hex
    rcases hex with ⟨x, hx, hne⟩
    rcases List.mem_cons.mp hx with h | h
    · subst h
      cases hm : matchingFiles files species x with
      | nil => simp [valsFold, hm]
      | cons b bs =>
        cases bs with
        | nil =>
          exfalso
          rw [hm] at hne
          simp at hne
        | cons b2 bs2 => simp [valsFold, hm]
    · cases hm : matchingFiles files species v with
      | nil => simp [valsFold, hm]
      | cons b bs =>
        cases bs with
        | nil =>
          simp only [valsFold, hm]
          exact ih _ ⟨x, h, hne⟩
        | cons b2 bs2 => simp [valsFold, hm]

/-- More than one alpha match fails the assertion of line 260. -/
theorem pairStep_error_of_alpha (fa : Str → List FRec) (files : List Str)
    (sp key value : Str) (h : 1 < (matchingFiles files sp key).length) :
    pairStep fa files sp key value = .error () := by
  simp only [pairStep]
  rw [if_neg (by omega)]

/-- With exactly one alpha match, a beta gene matching other than one
file fails the assertion of line 266. -/
theorem pairStep_error_of_beta (fa : Str → List FRec) (files : List Str)
    (sp key value : Str) (ha : (matchingFiles files sp key).length = 1)
    (hv : ∃ v ∈ splitOnSeps (str "-") value, (matchingFiles files sp v).length ≠ 1) :
    pairStep fa files sp key value = .error () := by
  obtain ⟨a, haa⟩ := List.length_eq_one.mp ha
  simp only [pairStep, haa]
  exact valsFold_error fa files sp (fa a) _ 0 hv

/-- Zero alpha matches skip the pair without touching the beta side. -/
theorem pairStep_skip (fa : Str → List FRec) (files : List Str)
    (sp key value : Str) (h : (matchingFiles files sp key).length = 0) :
    pairStep fa files sp key value = .ok 0 := by
  have h0 := List.length_eq_zero.mp h
  simp [pairStep, h0]

/-- Each species/gene pair of the fixed table is visited. -/
theorem mem_species_pairs (sp key value : Str) (hsp : sp ∈ SPECIES)
    (hkv : (key, value) ∈ gene_pairs sp) : (sp, key, value) ∈ species_pairs := by
  simp only [species_pairs, List.mem_flatten, List.mem_map]
  exact ⟨(gene_pairs sp).map (fun kv => (sp, kv.1, kv.2)), ⟨sp, hsp, rfl⟩,
    List.mem_map.mpr ⟨(key, value), hkv, rfl⟩⟩

/-- Claim C9 amended: for every species and gene pair of the fixed
table, more than one matching alpha-representative file aborts the run
with an assertion failure, and — when exactly one alpha file matches —
a beta gene whose match count is anything other than one also aborts
the run; with zero alpha matches the pair is skipped silently and the
beta side is never checked. -/
theorem C9_pairing_assertions (fa : Str → List FRec) (files : List Str)
    (sp key value : Str) (hsp : sp ∈ SPECIES) (hkv : (key, value) ∈ gene_pairs sp) :
    (1 < (matchingFiles files sp key).length →
      mhc2_cluster_combination_seqs fa files = .error ()) ∧
    ((matchingFiles files sp key).length = 1 →
      (∃ v ∈ splitOnSeps (str "-") value, (matchingFiles files sp v).length ≠ 1) →
      mhc2_cluster_combination_seqs fa files = .error ()) ∧
    ((matchingFiles files sp key).length = 0 →
      pairStep fa files sp key value = .ok 0) := by
  have hmem : (sp, key, value) ∈ species_pairs := mem_species_pairs sp key value hsp hkv
  refine ⟨?_, ?_, ?_⟩
  · intro h
    exact pairsFold_error fa files species_pairs 0
      ⟨(sp, key, value), hmem, pairStep_error_of_alpha fa files sp key value h⟩
  · intro ha hv
    exact pairsFold_error fa files species_pairs 0
      ⟨(sp, key, value), hmem, pairStep_error_of_beta fa files sp key value ha hv⟩
  · exact pairStep_skip fa files sp key value

/-- Counterexample to C9 as stated: with no candidate files at all, the
(homo, DMA, DMB) pair has zero beta matches, yet the run completes
normally instead of raising the claimed assertion failure, because the
zero-alpha `continue` of line 261 fires before the beta check. -/
theorem C9_counterexample :
    (str "homo") ∈ SPECIES ∧
    ((str "DMA", str "DMB") ∈ gene_pairs (str "homo")) ∧
    (matchingFiles [] (str "homo") (str "DMB")).length ≠ 1 ∧
    mhc2_cluster_combination_seqs (fun _ => []) [] = .ok 0 := by
  refine ⟨by decide, by decide, by decide, ?_⟩
  rfl

/-- Witness for the amended C9, exercising all three conjuncts at
concrete file lists. -/
theorem C9_pairing_assertions_witness :
    mhc2_cluster_combination_seqs (fun _ => [])
      [str "DMA-homo_a_rep.fasta", str "DMA-homo_b_rep.fasta"] = .error () ∧
    mhc2_cluster_combination_seqs (fun _ => [])
      [str "xDMA-homo_rep.fasta"] = .error () ∧
    pairStep (fun _ => []) [] (str "homo") (str "DMA") (str "DMB") = .ok 0 := by
  refine ⟨?_, ?_, ?_⟩
  · exact (C9_pairing_assertions (fun _ => [])
      [str "DMA-homo_a_rep.fasta", str "DMA-homo_b_rep.fasta"]
      (str "homo") (str "DMA") (str "DMB") (by decide) (by decide)).1 (by decide)
  · exact (C9_pairing_assertions (fun _ => []) [str "xDMA-homo_rep.fasta"]
      (str "homo") (str "DMA") (str "DMB") (by decide) (by decide)).2.1 (by decide)
      ⟨str "DMB", by decide, by decide⟩
  · exact (C9_pairing_assertions (fun _ => []) []
      (str "homo") (str "DMA") (str "DMB") (by decide) (by decide)).2.2 (by decide)

/-! ## Claims C2, C4, C5, C6, C10: the pseudo-sequence extractor -/

/-- When the species parses, the record loop of lines 386-403 collects
exactly the per-record success rows. -/
theorem buildRows_ok (f : Str) (mhc_type : Nat) (repId : Str) (pos : List Nat)
    (sp : Str) (hsp : speciesOf f = some sp) :
    ∀ l : List FRec,
      buildRows f mhc_type repId pos l = .ok (l.filterMap (successRowOf mhc_type repId sp pos)) := by
  intro l
  induction l with
  | nil => rfl
  | cons rec rest ih =>
    by_cases he : rec.seq.isEmpty
    · simp [buildRows, successRowOf, he, ih]
    · by_cases hf : (filtered_seq rec.seq pos).isEmpty
      · simp [buildRows, successRowOf, he, hf, ih]
      · simp [buildRows, successRowOf, he, hf, hsp, ih]

/-- A record produces no success row exactly when its sequence or its
pseudo-sequence is empty. -/
theorem successRowOf_eq_none (mhc_type : Nat) (repId sp : Str) (pos : List Nat)
    (rec : FRec) :
    successRowOf mhc_type repId sp pos rec = none
      ↔ (rec.seq = [] ∨ filtered_seq rec.seq pos = []) := by
  by_cases he : rec.seq.isEmpty
  · simp [successRowOf, he, List.isEmpty_iff.mp he]
  · by_cases hf : (filtered_seq rec.seq pos).isEmpty
    · simp [successRowOf, he, hf, List.isEmpty_iff.mp hf]
    · rw [successRowOf, if_neg he, if_neg hf]
      constructor
      · intro h
        exact Option.noConfusion h
      · rintro (h | h)
        · exact absurd (List.isEmpty_iff.mpr h) he
        · exact absurd (List.isEmpty_iff.mpr h) hf

/-- Claim C6 amended: for each aligned record with non-empty sequence
whose pseudo-sequence is non-empty a success row with the claimed
fields is appended, in record order; a single failure row carrying the
chain's representative identifier is appended exactly when no record of
the chain yields a non-empty pseudo-sequence (not one failure row per
empty-pseudo-sequence record, as the claim states). -/
theorem C6_row_outcomes_amended (A : MPArgs) (row : Row) (arr : List (List Nat))
    (idenList files : List Str) (enum : Nat) (f : Str)
    (tsvrows : List (Str × Str)) (repId : Str) (recs aligned : List FRec)
    (col : List Nat) (sp : Str)
    (h0 : chainAssertOk row.mhc_type idenList files = true)
    (h1 : A.env.tsv (tsvPath A f) = some tsvrows)
    (h2 : idenList.get? enum = some repId)
    (h3 : A.env.fasta (pjoin A.clust_folder f) = some recs)
    (h4 : A.env.mafft (extract_fasta_sequences recs (headersFor tsvrows repId)) = some aligned)
    (h5 : arr.get? enum = some col)
    (h6 : speciesOf f = some sp) :
    tryChain A row arr idenList files enum f
      = .ok (aligned.filterMap (successRowOf row.mhc_type repId sp (np_unique col)), repId) ∧
    (∀ r, r ∈ aligned.filterMap (successRowOf row.mhc_type repId sp (np_unique col))
      ↔ ∃ rec ∈ aligned, rec.seq ≠ [] ∧ filtered_seq rec.seq (np_unique col) ≠ [] ∧
        r = { mhc_id := rec.id, species := sp, mhc_types := row.mhc_type,
              pseudo_sequence := filtered_seq rec.seq (np_unique col),
              representative_id := repId, sequence := rec.seq,
              repres_pseudo_positions :=
                List.intercalate (str ";") ((np_unique col).map natStr) }) ∧
    (chainStep A row arr idenList files enum f = .failedRow repId
      ↔ ∀ rec ∈ aligned, rec.seq = [] ∨ filtered_seq rec.seq (np_unique col) = []) := by
  have htc : tryChain A row arr idenList files enum f
      = .ok (aligned.filterMap (successRowOf row.mhc_type repId sp (np_unique col)), repId) := by
    simp only [tryChain, h0, if_true, h1, h2, h3, h4, h5,
      buildRows_ok f row.mhc_type repId (np_unique col) sp h6]
  refine ⟨htc, ?_, ?_⟩
  · intro r
    rw [List.mem_filterMap]
    constructor
    · rintro ⟨rec, hrec, hsr⟩
      rw [successRowOf] at hsr
      by_cases he : rec.seq.isEmpty
      · rw [if_pos he] at hsr
        cases hsr
      · rw [if_neg he] at hsr
        by_cases hf : (filtered_seq rec.seq (np_unique col)).isEmpty
        · rw [if_pos hf] at hsr
          cases hsr
        · rw [if_neg hf] at hsr
          refine ⟨rec, hrec, ?_, ?_, ?_⟩
          · intro hq
            exact absurd (List.isEmpty_iff.mpr hq) (by simp [he])
          · intro hq
            exact absurd (List.isEmpty_iff.mpr hq) (by simp [hf])
          · cases hsr
            rfl
    · rintro ⟨rec, hrec, hne, hfne, hr⟩
      refine ⟨rec, hrec, ?_⟩
      rw [successRowOf, if_neg (by simp [hne]), if_neg (by simp [hfne]), hr]
  · rw [chainStep, htc]
    by_cases hemp : (aligned.filterMap (successRowOf row.mhc_type repId sp (np_unique col))).isEmpty
    · simp only [hemp, if_pos]
      have hnil := List.isEmpty_iff.mp hemp
      rw [List.filterMap_eq_nil_iff] at hnil
      simp only [true_iff]
      · intro rec hrec
        exact (successRowOf_eq_none row.mhc_type repId sp (np_unique col) rec).mp (hnil rec hrec)
    · simp only [hemp]
      constructor
      · intro hq
        cases hq
      · intro hall
        exfalso
        have hnil : aligned.filterMap (successRowOf row.mhc_type repId sp (np_unique col)) = [] :=
          List.filterMap_eq_nil_iff.mpr (fun rec hrec =>
            (successRowOf_eq_none row.mhc_type repId sp (np_unique col) rec).mpr (hall rec hrec))
        exact absurd (List.isEmpty_iff.mpr hnil) (by simp [hemp])

/-- Counterexample to C6 as stated: in the successful scenario the
aligned record `B` (sequence `A`, shorter than contact position 1) is
processed and yields an empty pseudo-sequence, yet no failure row is
appended — the failure accumulator stays empty because record `A`
produced a success row, so the failure test of line 404 is chain-level,
not per-record. -/
theorem C6_counterexample :
    filtered_seq (str "A") [1] = [] ∧
    envOK.mafft (extract_fasta_sequences
      [⟨str "A", [], str "AB"⟩, ⟨str "B", [], str "A"⟩]
      (headersFor [(str "R", str "A"), (str "R", str "B")] (str "R")))
      = some [⟨str "A", [], str "AB"⟩, ⟨str "B", [], str "A"⟩] ∧
    loopRows argsOK [rowOK] [] [] = some ([srowOK], []) := by
  exact ⟨rfl, rfl, rfl⟩

/-- Witness for the amended C6 at the concrete successful scenario. -/
theorem C6_row_outcomes_amended_witness :
    tryChain argsOK rowOK [[1]] [str "R"] [str "I-SLA_clust_all_seqs.fasta"] 0
      (str "I-SLA_clust_all_seqs.fasta")
      = .ok ([⟨str "A", [], str "AB"⟩, ⟨str "B", [], str "A"⟩].filterMap
          (successRowOf rowOK.mhc_type (str "R") (str "SLA") (np_unique [1])), str "R") ∧
    (chainStep argsOK rowOK [[1]] [str "R"] [str "I-SLA_clust_all_seqs.fasta"] 0
        (str "I-SLA_clust_all_seqs.fasta") = .failedRow (str "R")
      ↔ ∀ rec ∈ [(⟨str "A", [], str "AB"⟩ : FRec), ⟨str "B", [], str "A"⟩],
          rec.seq = [] ∨ filtered_seq rec.seq (np_unique [1]) = []) := by
  have h := C6_row_outcomes_amended argsOK rowOK [[1]] [str "R"]
    [str "I-SLA_clust_all_seqs.fasta"] 0 (str "I-SLA_clust_all_seqs.fasta")
    [(str "R", str "A"), (str "R", str "B")] (str "R")
    [⟨str "A", [], str "AB"⟩, ⟨str "B", [], str "A"⟩]
    [⟨str "A", [], str "AB"⟩, ⟨str "B", [], str "A"⟩]
    [1] (str "SLA") (by decide) rfl (by decide) rfl rfl (by decide) (by decide)
  exact ⟨h.1, h.2.2⟩

/-- Claim C2 amended: an exception raised inside the per-chain `try`
block of a non-excluded chain whose representative-identifier lookup
succeeds is caught, recorded as a failure row for that identifier, and
the chain loop continues on the remaining chains with the success
accumulator untouched. -/
theorem C2_chain_level_catch_amended (A : MPArgs) (row : Row) (arr : List (List Nat))
    (idenList files : List Str) (enum : Nat) (f : Str) (v : Str)
    (rest : List (Nat × Str)) (DF : List SRow) (FAILED : List Str)
    (hmice : isSubstr (str "mice") f = false)
    (htry : tryChain A row arr idenList files enum f = .error ())
    (hiden : idenList.get? enum = some v) :
    chainStep A row arr idenList files enum f = .failedRow v ∧
    chainsFold A row arr idenList files ((enum, f) :: rest) DF FAILED
      = chainsFold A row arr idenList files rest DF (FAILED ++ [v]) := by
  have hcs : chainStep A row arr idenList files enum f = .failedRow v := by
    rw [chainStep, htry, hiden]
  refine ⟨hcs, ?_⟩
  rw [chainsFold, if_neg (by simp [hmice]), hcs]

/-- Witness for the amended C2: a class-2 row with one filename fails
its chain-count assertion inside the `try`, and the failure is recorded
with processing continuing. -/
theorem C2_chain_level_catch_amended_witness :
    chainStep argsOK rowW [[1]] [str "R"] [str "g"] 0 (str "g") = .failedRow (str "R") ∧
    chainsFold argsOK rowW [[1]] [str "R"] [str "g"] [(0, str "g")] [] []
      = chainsFold argsOK rowW [[1]] [str "R"] [str "g"] [] [] ([] ++ [str "R"]) := by
  exact C2_chain_level_catch_amended argsOK rowW [[1]] [str "R"] [str "g"] 0
    (str "g") (str "R") [] [] [] (by decide) rfl (by decide)

/-- Counterexample to C2 as stated: the `np.load` of line 356 sits
outside the per-chain `try`, so a missing hotspots artifact for the
first row aborts the whole call — nothing is recorded and the second
row, which on its own would produce a success row, is never processed;
a single row does abort the whole batch. -/
theorem C2_counterexample :
    argsC2.env.npz (npzPathOf argsC2 rowBad) = none ∧
    processRow argsC2 rowOK [] [] = some ([srowOK], []) ∧
    match_pseudoseq argsC2 [rowBad, rowOK] = ([], .error ()) := by
  exact ⟨rfl, rfl, rfl⟩

/-- Claim C4 amended: a chain whose chain-count assertions fail never
yields a success record; it yields a failure record when the chain
index is within the representative-identifier list, but when the index
is beyond that list the `iden[enum]` inside the `except` handler itself
raises and the whole batch aborts. -/
theorem C4_chain_count_validation_amended (A : MPArgs) (row : Row)
    (arr : List (List Nat)) (idenList files : List Str) (enum : Nat) (f : Str)
    (hbad : chainAssertOk row.mhc_type idenList files = false) :
    (∀ rows, chainStep A row arr idenList files enum f ≠ .appended rows) ∧
    (∀ v, idenList.get? enum = some v →
      chainStep A row arr idenList files enum f = .failedRow v) ∧
    (idenList.get? enum = none → chainStep A row arr idenList files enum f = .abort) := by
  have htry : tryChain A row arr idenList files enum f = .error () := by
    rw [tryChain, if_neg (by simp [hbad])]
  refine ⟨?_, ?_, ?_⟩
  · intro rows
    cases hg : idenList.get? enum with
    | none =>
      rw [chainStep, htry, hg]
      intro hq
      cases hq
    | some v =>
      rw [chainStep, htry, hg]
      intro hq
      cases hq
  · intro v hv
    rw [chainStep, htry, hv]
  · intro hn
    rw [chainStep, htry, hn]

/-- Witness for the amended C4 at the concrete mismatched row: the
first chain's failure is recorded, the second chain aborts. -/
theorem C4_chain_count_validation_amended_witness :
    chainStep args4 row4 [[0]] [str "X"] [str "f1", str "f2"] 0 (str "f1")
      = .failedRow (str "X") ∧
    chainStep args4 row4 [[0]] [str "X"] [str "f1", str "f2"] 1 (str "f2")
      = .abort := by
  refine ⟨?_, ?_⟩
  · exact (C4_chain_count_validation_amended args4 row4 [[0]] [str "X"]
      [str "f1", str "f2"] 0 (str "f1") (by decide)).2.1 (str "X") (by decide)
  · exact (C4_chain_count_validation_amended args4 row4 [[0]] [str "X"]
      [str "f1", str "f2"] 1 (str "f2") (by decide)).2.2 (by decide)

/-- Counterexample to C4 as stated: a class-1 row with two filenames
and a single representative identifier does not yield a failure record
for each affected chain with processing continuing — the second chain's
`except` handler indexes `iden[1]` past the one-element identifier list
and the whole call aborts, writing nothing (the first chain's failure
row is lost). -/
theorem C4_counterexample :
    (filesOf row4).length = 2 ∧ row4.mhc_type = 1 ∧ idenListOf row4 = [str "X"] ∧
    match_pseudoseq args4 [row4] = ([], .error ()) := by
  exact ⟨by decide, rfl, by decide, rfl⟩

/-- Claim C5: the failure table written as deduplicated is in fact not
deduplicated: line 428 calls `drop_duplicates` but discards its result,
so the run below writes the duplicate `R2` failure row twice to the
noduplicate file, while the intended deduplication would keep one. -/
theorem C5_failed_dedup_code_bug :
    match_pseudoseq argsOK [rowOK, rowF, rowF]
      = ([FileWrite.dfTsv [srowOK], FileWrite.dfNoDup [srowOK],
          FileWrite.failedTsv [str "R2", str "R2"],
          FileWrite.failedNoDup [str "R2", str "R2"]], .ok ()) ∧
    drop_duplicates_iden [str "R2", str "R2"] = [str "R2"] := by
  exact ⟨rfl, by decide⟩

/-- Claim C10: when the extraction loop finishes with an empty success
accumulator, the final `pd.concat` raises, so nothing at all is written
— the failure tables included, losing all accumulated failure rows —
and the completion signal is never returned. -/
theorem C10_empty_success_aborts (A : MPArgs) (rows : List Row) (FAILED : List Str)
    (h : loopRows A rows [] [] = some ([], FAILED)) :
    match_pseudoseq A rows = ([], .error ()) := by
  simp only [match_pseudoseq, h]
  rfl

/-- Witness for C10: a run whose only row fails recoverably ends with
an empty success accumulator and one failure row, and the call aborts
with no writes. -/
theorem C10_empty_success_aborts_witness :
    loopRows argsOK [rowF] [] [] = some ([], [str "R2"]) ∧
    match_pseudoseq argsOK [rowF] = ([], .error ()) := by
  have h : loopRows argsOK [rowF] [] [] = some ([], [str "R2"]) := rfl
  exact ⟨h, C10_empty_success_aborts argsOK [rowF] [str "R2"] h⟩
